import Mathlib

/-!
Shallow embedding of `invokeai/app/services/board_record_storage.py`
(`SqliteBoardRecordStorage` and its pydantic models) and proofs of the
spec claims about it.

Modelling conventions:

* The SQLite store is a list of rows (`BoardsDb`), in rowid order.
* Timestamps are stored by SQLite as TEXT and compared textually.
  The schema default for `created_at` / `updated_at` is
  `STRFTIME('%Y-%m-%d %H:%M:%f','NOW')`, i.e. a text timestamp with a
  three-digit fractional-seconds part, while the `tg_boards_updated_at`
  trigger writes `current_timestamp`, i.e. a text timestamp with whole
  seconds only.  Both renderings are fixed width up to the seconds field
  and lexicographic text order on them agrees with numeric order of the
  encoded instant up to seconds; when the seconds prefixes are equal the
  whole-second form is a strict prefix of the fractional form and hence
  textually smaller.  `Timestamp` keeps exactly this information: the
  instant in seconds plus the fractional part when the format carries one,
  and `Timestamp.le` / `Timestamp.lt` are the induced text orders.
* The wall clock is an explicit argument of each operation (`Time`),
  standing for the value of `'NOW'` / `CURRENT_TIMESTAMP` during that call.
* `uuid.uuid4()` is modelled by passing the generated identifier to `save`
  as an argument; its uniqueness is a hypothesis where a claim needs it.
* Database faults are modelled as an explicit boolean input where a claim
  is about the fault path (`get`).
-/

deriving instance DecidableEq for Except

namespace Boards

/-- A wall-clock instant: seconds since some epoch plus a millisecond part. -/
structure Time where
  sec : Nat
  ms : Nat
deriving DecidableEq

/-- A stored TEXT timestamp: `withMs` is the `STRFTIME('%Y-%m-%d %H:%M:%f')`
rendering (fractional seconds present), `noMs` is the `CURRENT_TIMESTAMP`
rendering (whole seconds only). -/
inductive Timestamp where
  | withMs (sec ms : Nat)
  | noMs (sec : Nat)
deriving DecidableEq

/-- Lexicographic text order on stored timestamps.  Both formats agree and
are fixed-width through the seconds field, so text order compares seconds
first; on equal seconds the whole-second rendering is a strict prefix of the
fractional rendering, hence strictly smaller. -/
def Timestamp.le : Timestamp → Timestamp → Bool
  | .withMs s1 m1, .withMs s2 m2 => s1 < s2 || (s1 = s2 && m1 ≤ m2)
  | .withMs s1 _, .noMs s2 => s1 < s2
  | .noMs s1, .withMs s2 _ => s1 ≤ s2
  | .noMs s1, .noMs s2 => s1 ≤ s2

/-- Strict text order on stored timestamps. -/
def Timestamp.lt : Timestamp → Timestamp → Bool
  | .withMs s1 m1, .withMs s2 m2 => s1 < s2 || (s1 = s2 && m1 < m2)
  | .withMs s1 _, .noMs s2 => s1 < s2
  | .noMs s1, .withMs s2 _ => s1 ≤ s2
  | .noMs s1, .noMs s2 => s1 < s2

/-- One row of the `boards` table. -/
structure BoardRow where
  board_id : String
  board_name : String
  cover_image_name : Option String
  created_at : Timestamp
  updated_at : Timestamp
  deleted_at : Option Timestamp
deriving DecidableEq

/-- The pydantic `BoardRecord` model (the `deleted_at` column is dropped:
it is not a field of the model and pydantic ignores extra keys by default). -/
structure BoardRecord where
  board_id : String
  board_name : String
  cover_image_name : Option String
  created_at : Timestamp
  updated_at : Timestamp
deriving DecidableEq

/-- The pydantic `BoardChanges` patch model, after validation: each field is
`none` when absent (or explicitly null) and `some v` when given a string. -/
structure BoardChanges where
  board_name : Option String
  cover_image_name : Option String
deriving DecidableEq

/-- The exception kinds of the module.  `rawDb` stands for an unwrapped
`sqlite3.Error` re-raised as-is (the `get_many` fault path). -/
inductive BoardsErr where
  | notFound
  | saveError
  | deleteError
  | rawDb
deriving DecidableEq

/-- The persistent state: the `boards` table contents in rowid order. -/
structure BoardsDb where
  rows : List BoardRow
deriving DecidableEq

/-- The freshly initialised store (after `_create_tables` on a new file). -/
def emptyDb : BoardsDb := ⟨[]⟩

/-- `BoardRecord(**row)`: build the pydantic record from a row. -/
def toRecord (r : BoardRow) : BoardRecord :=
  { board_id := r.board_id
    board_name := r.board_name
    cover_image_name := r.cover_image_name
    created_at := r.created_at
    updated_at := r.updated_at }

/-- `SELECT * FROM boards WHERE board_id = ?` followed by `fetchone()`. -/
def selectById (db : BoardsDb) (b : String) : Option BoardRow :=
  db.rows.find? (fun r => decide (r.board_id = b))

/-- `INSERT OR IGNORE INTO boards (board_id, board_name) VALUES (?, ?)`:
appends a row taking the schema defaults for the other columns — both
`created_at` and `updated_at` default to `STRFTIME('%Y-%m-%d %H:%M:%f','NOW')`
and SQLite evaluates `'NOW'` once per statement, so they are equal — unless a
row with the same primary key exists, in which case the insert is ignored. -/
def insertOrIgnore (db : BoardsDb) (board_id board_name : String) (now : Time) :
    BoardsDb :=
  if db.rows.any (fun r => decide (r.board_id = board_id)) then db
  else
    ⟨db.rows ++
      [{ board_id := board_id
         board_name := board_name
         cover_image_name := none
         created_at := .withMs now.sec now.ms
         updated_at := .withMs now.sec now.ms
         deleted_at := none }]⟩

/-- `SqliteBoardRecordStorage.save`: the generated `uuid.uuid4()` value is the
`genId` argument.  Inserts (ignoring a primary-key conflict), commits, re-reads
the row by id and returns the record built from it (`none` if the re-read
finds no row). -/
def save (db : BoardsDb) (genId board_name : String) (now : Time) :
    BoardsDb × Option BoardRecord :=
  let db' := insertOrIgnore db genId board_name now
  (db', (selectById db' genId).map toRecord)

/-- One `UPDATE boards SET … WHERE board_id = ?` statement together with the
`tg_boards_updated_at` trigger: every matching row is transformed by `f`
(which never touches `board_id`) and then, for each updated row, the trigger
sets `updated_at = current_timestamp`, the whole-second rendering of the
statement's wall clock.  Rows that do not match are untouched and the trigger
does not fire for them. -/
def sqlUpdateRows (db : BoardsDb) (b : String) (f : BoardRow → BoardRow)
    (now : Time) : BoardsDb :=
  ⟨db.rows.map (fun r =>
    if r.board_id = b then { f r with updated_at := .noMs now.sec } else r)⟩

/-- `SqliteBoardRecordStorage.update`: one independent UPDATE statement per
present patch field (name first, then cover image), then a single commit. -/
def update (db : BoardsDb) (b : String) (changes : BoardChanges) (now : Time) :
    BoardsDb :=
  let db1 :=
    match changes.board_name with
    | some n => sqlUpdateRows db b (fun r => { r with board_name := n }) now
    | none => db
  match changes.cover_image_name with
  | some c => sqlUpdateRows db1 b (fun r => { r with cover_image_name := c }) now
  | none => db1

/-- `SqliteBoardRecordStorage.get`: `dbFault` is true when the lookup itself
raises `sqlite3.Error`; that path and the no-row path both raise
`BoardRecordNotFoundException`. -/
def get (db : BoardsDb) (b : String) (dbFault : Bool) :
    Except BoardsErr BoardRecord :=
  if dbFault then .error .notFound
  else
    match selectById db b with
    | none => .error .notFound
    | some r => .ok (toRecord r)

/-- `SqliteBoardRecordStorage.delete`: the Python passes `(board_id)` — a bare
string, not a one-element tuple — as the statement parameters.  `sqlite3`
accepts any sequence, and a string is a sequence of one-character strings, so
the binding succeeds exactly when the id has length 1 (binding that single
character, i.e. the id itself) and otherwise raises
`sqlite3.ProgrammingError` (wrong number of bindings), which the handler
converts to `BoardRecordDeleteException` after rolling back. -/
def delete (db : BoardsDb) (board_id : String) : Except BoardsErr BoardsDb :=
  if board_id.length = 1 then
    .ok ⟨db.rows.filter (fun r => decide (r.board_id ≠ board_id))⟩
  else
    .error .deleteError

/-- Rows ordered through `updated_at` descending: `updGE a b` says `a` sorts
no later than `b`, i.e. `b.updated_at ≤ a.updated_at` in text order. -/
def updGE (a b : BoardRow) : Prop := Timestamp.le b.updated_at a.updated_at = true

instance : DecidableRel updGE := fun a b => by
  unfold updGE; infer_instance

/-- `ORDER BY updated_at DESC` (ties left in rowid order, one refinement of
SQLite's unspecified tie order). -/
def sortByUpdatedDesc (rows : List BoardRow) : List BoardRow :=
  List.insertionSort updGE rows

/-- Modelled from the spec: the paginated-result shape
`{items, offset, limit, total}` of `OffsetPaginatedResults`, whose defining
module `invokeai/app/services/image_record_storage.py` is not among the given
sources. -/
structure OffsetPaginatedResults where
  items : List BoardRecord
  offset : Nat
  limit : Nat
  total : Nat
deriving DecidableEq

/-- `SqliteBoardRecordStorage.get_many`: `SELECT * FROM boards ORDER BY
updated_at DESC LIMIT ? OFFSET ?`, then `SELECT COUNT(*) FROM boards`, echoed
offset and limit.  Offset and limit are taken non-negative (`Nat`), matching
the claims' precondition. -/
def get_many (db : BoardsDb) (offset : Nat) (limit : Nat) :
    OffsetPaginatedResults :=
  { items := (((sortByUpdatedDesc db.rows).drop offset).take limit).map toRecord
    offset := offset
    limit := limit
    total := db.rows.length }

/-- A mutating call on the store, with its wall-clock time where the SQL
reads the clock: `opSave` carries the generated uuid, `opUpdate` a validated
patch, `opDelete` the id passed to `delete`. -/
inductive Op where
  | opSave (genId board_name : String) (now : Time)
  | opUpdate (b : String) (ch : BoardChanges) (now : Time)
  | opDelete (b : String)
deriving DecidableEq

/-- The store state after one call; a failing `delete` rolls back, leaving
the state unchanged. -/
def applyOp (db : BoardsDb) : Op → BoardsDb
  | .opSave g n t => (save db g n t).1
  | .opUpdate b ch t => update db b ch t
  | .opDelete b =>
    match delete db b with
    | .ok db' => db'
    | .error _ => db

/-- The store state after a sequence of calls. -/
def applyOps (db : BoardsDb) (ops : List Op) : BoardsDb :=
  ops.foldl applyOp db

/-- The spec invariant `created_at ≤ updated_at`, for every row. -/
def dbOk (db : BoardsDb) : Bool :=
  db.rows.all (fun r => Timestamp.le r.created_at r.updated_at)

/-- The trigger timestamp `noMs t.sec` of an update at time `t` is at least
the `created_at` of every row of board `b` — the update does not run in (or
before) the second in which its target rows were created. -/
def updSafe (db : BoardsDb) (b : String) (t : Time) : Bool :=
  db.rows.all (fun r =>
    !(decide (r.board_id = b)) || Timestamp.le r.created_at (.noMs t.sec))

/-- Sufficient condition for one call to preserve `dbOk`: an update must not
run before (in text order) the `created_at` of any row it touches — the
trigger writes the whole-second timestamp `noMs now.sec`, which must be at
least `created_at`.  Saves and deletes are unconditionally safe. -/
def safeOp (db : BoardsDb) : Op → Bool
  | .opUpdate b _ t => updSafe db b t
  | _ => true

/-- `safeOp` at every step of a call sequence. -/
def safeTrace (db : BoardsDb) : List Op → Bool
  | [] => true
  | op :: ops => safeOp db op && safeTrace (applyOp db op) ops

/-- A sequence of `update` calls, each with its target id, patch and time. -/
def applyUpdates (db : BoardsDb) (us : List (String × BoardChanges × Time)) :
    BoardsDb :=
  us.foldl (fun d u => update d u.1 u.2.1 u.2.2) db

/-- Every row of board `b` has a non-null `cover_image_name`. -/
def coverOk (db : BoardsDb) (b : String) : Bool :=
  db.rows.all (fun r =>
    !(decide (r.board_id = b)) || r.cover_image_name.isSome)

/-- A JSON value of the shapes relevant to the `BoardChanges` fields. -/
inductive Jval where
  | jnull
  | jstr (s : String)
deriving DecidableEq

/-- A pydantic validation failure: `Extra.forbid` rejecting an unknown key. -/
inductive ValErr where
  | extraForbidden (key : String)
deriving DecidableEq

/-- Keys declared on the `BoardChanges` model. -/
def knownKey (k : String) : Bool :=
  k == "board_name" || k == "cover_image_name"

/-- The value a declared `Optional[str]` field takes under pydantic v1: `none`
when the key is absent (Optional fields are not required and default to None)
and also when it is present with an explicit null (Optional[str] accepts
None); the string otherwise. -/
def fieldVal (fields : List (String × Jval)) (k : String) : Option String :=
  match (fields.find? (fun p => p.1 == k)).map (fun p => p.2) with
  | none => none
  | some Jval.jnull => none
  | some (Jval.jstr s) => some s

/-- Pydantic v1 validation of `BoardChanges(BaseModel, extra=Extra.forbid)`
on a JSON object given as a key/value list: any key not declared on the model
is rejected; the two declared `Optional[str]` fields are populated by
`fieldVal`. -/
def validateBoardChanges (fields : List (String × Jval)) :
    Except ValErr BoardChanges :=
  match fields.find? (fun p => !knownKey p.1) with
  | some p => .error (.extraForbidden p.1)
  | none => .ok ⟨fieldVal fields "board_name", fieldVal fields "cover_image_name"⟩

/-! ### Order lemmas for stored timestamps -/

theorem Timestamp.le_refl (a : Timestamp) : Timestamp.le a a = true := by
  cases a <;> simp [Timestamp.le]

theorem Timestamp.le_total (a b : Timestamp) :
    Timestamp.le a b = true ∨ Timestamp.le b a = true := by
  cases a <;> cases b <;> simp [Timestamp.le] <;> omega

theorem Timestamp.le_trans {a b c : Timestamp} (h1 : Timestamp.le a b = true)
    (h2 : Timestamp.le b c = true) : Timestamp.le a c = true := by
  cases a <;> cases b <;> cases c <;>
    simp [Timestamp.le] at h1 h2 ⊢ <;> omega

instance : IsTotal BoardRow updGE :=
  ⟨fun a b => by unfold updGE; exact Timestamp.le_total _ _⟩

instance : IsTrans BoardRow updGE :=
  ⟨fun _ _ _ h1 h2 => by unfold updGE at h1 h2 ⊢; exact Timestamp.le_trans h2 h1⟩

/-! ### Helper lemmas about the embedded operations -/

theorem board_id_sqlUpdateRow (b : String) (f : BoardRow → BoardRow)
    (now : Time) (hf : ∀ r, (f r).board_id = r.board_id) (r : BoardRow) :
    (if r.board_id = b then { f r with updated_at := .noMs now.sec } else r).board_id
      = r.board_id := by
  by_cases hc : r.board_id = b <;> simp [hc, hf]

theorem find?_map_of_id_preserved (l : List BoardRow) (g : BoardRow → BoardRow)
    (b : String) (hg : ∀ r, (g r).board_id = r.board_id) :
    (l.map g).find? (fun r => decide (r.board_id = b)) =
      (l.find? (fun r => decide (r.board_id = b))).map g := by
  induction l with
  | nil => rfl
  | cons h t ih =>
    by_cases hc : h.board_id = b
    · simp [List.find?, hg, hc]
    · simp [List.find?, hg, hc, ih]

theorem selectById_sqlUpdateRows (db : BoardsDb) (b : String)
    (f : BoardRow → BoardRow) (now : Time) (b2 : String)
    (hf : ∀ r, (f r).board_id = r.board_id) :
    selectById (sqlUpdateRows db b f now) b2 =
      (selectById db b2).map (fun r =>
        if r.board_id = b then { f r with updated_at := .noMs now.sec } else r) := by
  unfold selectById sqlUpdateRows
  exact find?_map_of_id_preserved db.rows _ b2
    (board_id_sqlUpdateRow b f now hf)

theorem sqlUpdateRows_nomatch (db : BoardsDb) (b : String)
    (f : BoardRow → BoardRow) (now : Time)
    (h : db.rows.all (fun r => decide (r.board_id ≠ b)) = true) :
    sqlUpdateRows db b f now = db := by
  unfold sqlUpdateRows
  cases db with
  | mk rows =>
    simp only [BoardsDb.mk.injEq]
    simp only [List.all_eq_true] at h
    induction rows with
    | nil => rfl
    | cons hd tl ih =>
      have hhd := h hd (by simp)
      simp only [decide_eq_true_eq] at hhd
      simp only [List.map_cons, if_neg hhd, List.cons.injEq, true_and]
      exact ih (fun r hr => h r (by simp [hr]))

theorem dbOk_sqlUpdateRows (db : BoardsDb) (b : String) (f : BoardRow → BoardRow)
    (now : Time) (hfc : ∀ r, (f r).created_at = r.created_at)
    (h1 : dbOk db = true) (h2 : updSafe db b now = true) :
    dbOk (sqlUpdateRows db b f now) = true := by
  simp only [dbOk, sqlUpdateRows, List.all_eq_true, List.mem_map] at h1 ⊢
  rintro r ⟨r0, hr0, rfl⟩
  by_cases hc : r0.board_id = b
  · simp only [if_pos hc, hfc]
    simp only [updSafe, List.all_eq_true] at h2
    have := h2 r0 hr0
    simpa [hc] using this
  · simpa [if_neg hc] using h1 r0 hr0

theorem updSafe_sqlUpdateRows (db : BoardsDb) (b : String)
    (f : BoardRow → BoardRow) (now : Time) (b2 : String) (t2 : Time)
    (hfc : ∀ r, (f r).created_at = r.created_at)
    (hfi : ∀ r, (f r).board_id = r.board_id)
    (h : updSafe db b2 t2 = true) :
    updSafe (sqlUpdateRows db b f now) b2 t2 = true := by
  simp only [updSafe, sqlUpdateRows, List.all_eq_true, List.mem_map] at h ⊢
  rintro r ⟨r0, hr0, rfl⟩
  by_cases hc : r0.board_id = b
  · simpa [if_pos hc, hfc, hfi] using h r0 hr0
  · simpa [if_neg hc] using h r0 hr0

theorem dbOk_update (db : BoardsDb) (b : String) (ch : BoardChanges) (now : Time)
    (h1 : dbOk db = true) (h2 : updSafe db b now = true) :
    dbOk (update db b ch now) = true := by
  unfold update
  cases hn : ch.board_name with
  | none =>
    cases hc : ch.cover_image_name with
    | none => exact h1
    | some c => exact dbOk_sqlUpdateRows db b _ now (fun r => rfl) h1 h2
  | some n =>
    cases hc : ch.cover_image_name with
    | none => exact dbOk_sqlUpdateRows db b _ now (fun r => rfl) h1 h2
    | some c =>
      refine dbOk_sqlUpdateRows _ b _ now (fun r => rfl) ?_ ?_
      · exact dbOk_sqlUpdateRows db b _ now (fun r => rfl) h1 h2
      · exact updSafe_sqlUpdateRows db b _ now b now (fun r => rfl) (fun r => rfl) h2

theorem dbOk_insertOrIgnore (db : BoardsDb) (g n : String) (t : Time)
    (h : dbOk db = true) : dbOk (insertOrIgnore db g n t) = true := by
  unfold insertOrIgnore
  by_cases hc : db.rows.any (fun r => decide (r.board_id = g))
  · simpa [hc] using h
  · simp only [hc, if_neg, Bool.false_eq_true, not_false_iff]
    simp only [dbOk, List.all_eq_true, List.mem_append] at h ⊢
    rintro r (hr | hr)
    · exact h r hr
    · simp only [List.mem_singleton] at hr
      subst hr
      exact Timestamp.le_refl _

theorem dbOk_applyOp (db : BoardsDb) (op : Op) (h1 : dbOk db = true)
    (h2 : safeOp db op = true) : dbOk (applyOp db op) = true := by
  cases op with
  | opSave g n t => exact dbOk_insertOrIgnore db g n t h1
  | opUpdate b ch t => exact dbOk_update db b ch t h1 h2
  | opDelete b =>
    unfold applyOp delete
    by_cases hb : b.length = 1
    · simp only [if_pos hb]
      simp only [dbOk, List.all_eq_true] at h1 ⊢
      exact fun r hr => h1 r (List.mem_of_mem_filter hr)
    · simpa [if_neg hb] using h1

theorem coverOk_sqlUpdateRows (db : BoardsDb) (b : String)
    (f : BoardRow → BoardRow) (now : Time) (b2 : String)
    (hfi : ∀ r, (f r).board_id = r.board_id)
    (hfc : ∀ r, (f r).cover_image_name = r.cover_image_name ∨
      (f r).cover_image_name.isSome = true)
    (h : coverOk db b2 = true) : coverOk (sqlUpdateRows db b f now) b2 = true := by
  simp only [coverOk, sqlUpdateRows, List.all_eq_true, List.mem_map] at h ⊢
  rintro r ⟨r0, hr0, rfl⟩
  by_cases hc : r0.board_id = b
  · rcases hfc r0 with hcov | hcov
    · simpa [if_pos hc, hfi, hcov] using h r0 hr0
    · simp [if_pos hc, hcov]
  · simpa [if_neg hc] using h r0 hr0

theorem coverOk_update (db : BoardsDb) (b2 b : String) (ch : BoardChanges)
    (now : Time) (h : coverOk db b2 = true) :
    coverOk (update db b ch now) b2 = true := by
  unfold update
  cases hn : ch.board_name with
  | none =>
    cases hc : ch.cover_image_name with
    | none => exact h
    | some c =>
      exact coverOk_sqlUpdateRows db b _ now b2 (fun r => rfl)
        (fun r => Or.inr rfl) h
  | some n =>
    cases hc : ch.cover_image_name with
    | none =>
      exact coverOk_sqlUpdateRows db b _ now b2 (fun r => rfl)
        (fun r => Or.inl rfl) h
    | some c =>
      refine coverOk_sqlUpdateRows _ b _ now b2 (fun r => rfl)
        (fun r => Or.inr rfl) ?_
      exact coverOk_sqlUpdateRows db b _ now b2 (fun r => rfl)
        (fun r => Or.inl rfl) h

theorem find?_append_fresh (l : List BoardRow) (row : BoardRow) (g : String)
    (hfresh : l.all (fun r => decide (r.board_id ≠ g)) = true)
    (hrow : row.board_id = g) :
    (l ++ [row]).find? (fun r => decide (r.board_id = g)) = some row := by
  induction l with
  | nil => simp [List.find?, hrow]
  | cons h t ih =>
    simp only [List.all_eq_true] at hfresh
    have hh := hfresh h (by simp)
    simp only [decide_eq_true_eq] at hh
    simp only [List.cons_append, List.find?, decide_eq_true_eq, hh,
      decide_False]
    exact ih (by simp only [List.all_eq_true]; exact fun r hr => hfresh r (by simp [hr]))

/-! ### Claim theorems -/

/-- A store holding one board, used as the concrete input for claim C1. -/
def c1Db : BoardsDb :=
  ⟨[{ board_id := "board-123"
      board_name := "mine"
      cover_image_name := none
      created_at := .withMs 100 500
      updated_at := .withMs 100 500
      deleted_at := none }]⟩

/-- Claim C1 (code bug): the claim says `delete` succeeds silently on a
missing id and removes an existing row, but the implementation passes the id
to the DELETE statement as a bare string instead of a one-element tuple, so
for every id whose length is not 1 the parameter binding fails and
`BoardRecordDeleteException` is raised — here evaluated both on an id that
exists in the store and on an unknown id. -/
theorem c1_delete_binding_bug :
    delete c1Db "board-123" = .error .deleteError ∧
    delete c1Db "unknown-id" = .error .deleteError := by
  exact ⟨rfl, rfl⟩

/-- The store after `save` at 100.500 s, for claim C2. -/
def c2Db0 : BoardsDb := (save emptyDb "board-1" "mine" ⟨100, 500⟩).1

/-- `c2Db0` after a rename `update` executed in the same second (at
100.999 s): the trigger writes the whole-second timestamp. -/
def c2Db1 : BoardsDb := update c2Db0 "board-1" ⟨some "renamed", none⟩ ⟨100, 999⟩

/-- Claim C2 fails as stated: after an `update` in the same second as
creation, the row's `updated_at` (the trigger's whole-second
`current_timestamp` text) is textually smaller than its `created_at` (the
schema default's millisecond text), so `created_at ≤ updated_at` is violated. -/
theorem c2_counterexample :
    (selectById c2Db1 "board-1").map (fun r => (r.created_at, r.updated_at))
        = some (.withMs 100 500, .noMs 100) ∧
    dbOk c2Db1 = false := by
  exact ⟨rfl, rfl⟩

/-- Claim C2 (amended): `created_at ≤ updated_at` holds for every row after
any sequence of save/update/delete calls, provided every update's trigger
timestamp (the whole-second `current_timestamp`) is at least the
`created_at` of the rows it touches — in particular whenever each update
runs in a strictly later second than the creation of its target.  An update
within the creation second can violate the invariant, because the trigger
writes whole-second text while the creation default writes millisecond
text. -/
theorem c2_amended_created_le_updated (db : BoardsDb) (ops : List Op)
    (h1 : dbOk db = true) (h2 : safeTrace db ops = true) :
    dbOk (applyOps db ops) = true := by
  induction ops generalizing db with
  | nil => exact h1
  | cons op ops ih =>
    simp only [safeTrace, Bool.and_eq_true] at h2
    simp only [applyOps, List.foldl_cons]
    exact ih (applyOp db op) (dbOk_applyOp db op h1 h2.1) h2.2

/-- Witness for the amended claim C2: a concrete safe trace — a save, an
update one second later, a (failing) delete and another save — keeps the
invariant. -/
theorem c2_amended_witness :
    dbOk (applyOps c2Db0
      [.opUpdate "board-1" ⟨some "renamed", none⟩ ⟨101, 0⟩,
       .opDelete "board-1",
       .opSave "board-2" "other" ⟨102, 3⟩]) = true :=
  c2_amended_created_le_updated c2Db0 _ (by decide) (by decide)

/-- Claim C5: updating a board id that matches no row leaves the store
completely unchanged (the UPDATE statements affect zero rows, the trigger
does not fire, and no error is raised — the model's `update` is total). -/
theorem c5_update_unknown_noop (db : BoardsDb) (b : String) (ch : BoardChanges)
    (now : Time) (h : db.rows.all (fun r => decide (r.board_id ≠ b)) = true) :
    update db b ch now = db := by
  unfold update
  cases hn : ch.board_name with
  | none =>
    cases hc : ch.cover_image_name with
    | none => rfl
    | some c => exact sqlUpdateRows_nomatch db b _ now h
  | some n =>
    cases hc : ch.cover_image_name with
    | none => exact sqlUpdateRows_nomatch db b _ now h
    | some c =>
      dsimp only
      rw [sqlUpdateRows_nomatch db b _ now h, sqlUpdateRows_nomatch db b _ now h]

/-- Witness for claim C5: a patch setting both fields on an unknown id
leaves a concrete one-row store unchanged. -/
theorem c5_update_unknown_noop_witness :
    update c1Db "no-such-board" ⟨some "X", some "img"⟩ ⟨50, 0⟩ = c1Db :=
  c5_update_unknown_noop c1Db "no-such-board" ⟨some "X", some "img"⟩ ⟨50, 0⟩
    (by decide)

/-- Claim C6: `get` fails with the not-found error when no row matches, fails
with the same not-found error when the lookup raises a database fault, and
never returns any other error kind. -/
theorem c6_get_notfound_only (db : BoardsDb) (b : String) (fault : Bool) :
    (selectById db b = none → get db b fault = .error .notFound) ∧
    (fault = true → get db b fault = .error .notFound) ∧
    (∀ e, get db b fault = .error e → e = .notFound) := by
  refine ⟨?_, ?_, ?_⟩
  · intro h
    unfold get
    cases fault
    · simp [h]
    · simp
  · intro h
    subst h
    rfl
  · intro e he
    unfold get at he
    cases fault
    · simp only [Bool.false_eq_true, if_false] at he
      cases hs : selectById db b with
      | none => simp only [hs, Except.error.injEq] at he; exact he.symm
      | some r => simp [hs] at he
    · simp only [if_true, Except.error.injEq] at he
      exact he.symm

/-- Witness for claim C6: `get` on an empty store fails with the not-found
error. -/
theorem c6_get_notfound_only_witness :
    get emptyDb "missing" false = .error .notFound :=
  (c6_get_notfound_only emptyDb "missing" false).1 rfl

/-- Claim C9: an `update` whose patch has both fields absent executes no
UPDATE statement and leaves the store — including every `updated_at` —
entirely unchanged. -/
theorem c9_empty_patch_noop (db : BoardsDb) (b : String) (now : Time) :
    update db b ⟨none, none⟩ now = db := rfl

/-- Claim C3: with a fresh generated id (modelling `uuid.uuid4()` not
colliding with any stored id) and a non-empty name, `save` returns a record
carrying exactly that id (hence distinct from every stored id), the given
name, a null cover image, and equal creation and update timestamps. -/
theorem c3_save_fresh (db : BoardsDb) (g name : String) (now : Time)
    (_hname : name ≠ "")
    (hfresh : db.rows.all (fun r => decide (r.board_id ≠ g)) = true) :
    ∃ rec, (save db g name now).2 = some rec ∧
      rec.board_id = g ∧
      db.rows.all (fun r => decide (r.board_id ≠ rec.board_id)) = true ∧
      rec.board_name = name ∧
      rec.cover_image_name = none ∧
      rec.created_at = rec.updated_at := by
  have hany : db.rows.any (fun r => decide (r.board_id = g)) = false := by
    by_contra hco
    rw [Bool.not_eq_false, List.any_eq_true] at hco
    obtain ⟨r, hr, hrg⟩ := hco
    simp only [List.all_eq_true] at hfresh
    have hne := hfresh r hr
    simp only [decide_eq_true_eq] at hne hrg
    exact hne hrg
  refine ⟨{ board_id := g, board_name := name, cover_image_name := none,
            created_at := .withMs now.sec now.ms,
            updated_at := .withMs now.sec now.ms }, ?_, rfl, hfresh, rfl, rfl, rfl⟩
  unfold save insertOrIgnore selectById
  simp only [hany, Bool.false_eq_true, if_false]
  rw [find?_append_fresh db.rows _ g hfresh rfl]
  rfl

/-- Witness for claim C3: saving into the empty store with id `board-1` and
name `mine` yields a record with all the claimed fields. -/
theorem c3_save_fresh_witness :
    ∃ rec, (save emptyDb "board-1" "mine" ⟨7, 250⟩).2 = some rec ∧
      rec.board_id = "board-1" ∧
      emptyDb.rows.all (fun r => decide (r.board_id ≠ rec.board_id)) = true ∧
      rec.board_name = "mine" ∧
      rec.cover_image_name = none ∧
      rec.created_at = rec.updated_at :=
  c3_save_fresh emptyDb "board-1" "mine" ⟨7, 250⟩ (by decide) (by decide)

/-- The single row stored by `save emptyDb "board-1" "mine" ⟨100, 500⟩`,
for claim C4. -/
def c4Row : BoardRow :=
  { board_id := "board-1"
    board_name := "mine"
    cover_image_name := none
    created_at := .withMs 100 500
    updated_at := .withMs 100 500
    deleted_at := none }

/-- The store after `save` at 100.500 s, for claim C4. -/
def c4Db0 : BoardsDb := (save emptyDb "board-1" "mine" ⟨100, 500⟩).1

/-- `c4Db0` after a rename `update` executed in the same second, at
100.999 s. -/
def c4Db1 : BoardsDb := update c4Db0 "board-1" ⟨some "renamed", none⟩ ⟨100, 999⟩

/-- Claim C4 fails as stated: renaming a board in the same second as its
creation refreshes `updated_at` to the trigger's whole-second text, which is
textually smaller than — not strictly greater than — the prior millisecond
`updated_at`; the name does change and the cover image stays unchanged. -/
theorem c4_counterexample :
    (get c4Db0 "board-1" false).toOption.map (fun r => r.updated_at)
        = some (.withMs 100 500) ∧
    (get c4Db1 "board-1" false).toOption.map
        (fun r => (r.board_name, r.cover_image_name, r.updated_at))
        = some ("renamed", none, .noMs 100) ∧
    Timestamp.lt (.withMs 100 500) (.noMs 100) = false := by
  exact ⟨rfl, rfl, rfl⟩

/-- Claim C4 (amended): for an existing board, `update(id, {board_name: X})`
followed by `get(id)` returns `board_name = X` with the cover image
unchanged, and `updated_at` is strictly greater than the prior `updated_at`
provided the update's trigger timestamp (whole-second `current_timestamp`)
is textually strictly above the prior `updated_at` — in particular whenever
the update runs in a strictly later second.  For an update within the same
second, `updated_at` can stay equal or even decrease. -/
theorem c4_amended_update_get (db : BoardsDb) (b X : String) (now : Time)
    (r0 : BoardRow) (h0 : selectById db b = some r0)
    (hlater : Timestamp.lt r0.updated_at (.noMs now.sec) = true) :
    ∃ rec, get (update db b ⟨some X, none⟩ now) b false = .ok rec ∧
      rec.board_name = X ∧
      rec.cover_image_name = r0.cover_image_name ∧
      Timestamp.lt r0.updated_at rec.updated_at = true := by
  have hid : r0.board_id = b := by
    have := List.find?_some h0
    simpa using this
  have hsel : selectById (update db b ⟨some X, none⟩ now) b
      = some { r0 with board_name := X, updated_at := .noMs now.sec } := by
    show selectById
      (sqlUpdateRows db b (fun r => { r with board_name := X }) now) b = _
    rw [selectById_sqlUpdateRows db b (fun r => { r with board_name := X })
      now b (fun r => rfl), h0]
    simp [hid]
  refine ⟨toRecord { r0 with board_name := X, updated_at := .noMs now.sec },
    ?_, rfl, rfl, hlater⟩
  unfold get
  simp only [Bool.false_eq_true, if_false, hsel]

/-- Witness for the amended claim C4: renaming `board-1` one second after
its creation yields the new name, the old cover image and a strictly larger
`updated_at`. -/
theorem c4_amended_update_get_witness :
    ∃ rec, get (update c4Db0 "board-1" ⟨some "renamed", none⟩ ⟨101, 0⟩)
        "board-1" false = .ok rec ∧
      rec.board_name = "renamed" ∧
      rec.cover_image_name = c4Row.cover_image_name ∧
      Timestamp.lt c4Row.updated_at rec.updated_at = true :=
  c4_amended_update_get c4Db0 "board-1" "renamed" ⟨101, 0⟩ c4Row
    (by decide) (by decide)

/-- A store holding one board whose cover image is set, for claim C10. -/
def c10Db : BoardsDb :=
  ⟨[{ board_id := "board-1"
      board_name := "mine"
      cover_image_name := some "img-1"
      created_at := .withMs 0 0
      updated_at := .withMs 0 0
      deleted_at := none }]⟩

/-- Claim C10: once every row of a board has a non-null cover image, no
sequence of `update` calls — any targets, any patches, any times — can reset
it to null: a null patch field is skipped as absent, and a present field only
ever writes a concrete string. -/
theorem c10_cover_never_cleared (db : BoardsDb) (b : String)
    (us : List (String × BoardChanges × Time))
    (h : coverOk db b = true) : coverOk (applyUpdates db us) b = true := by
  induction us generalizing db with
  | nil => exact h
  | cons u us ih =>
    simp only [applyUpdates, List.foldl_cons]
    exact ih _ (coverOk_update db b u.1 u.2.1 u.2.2 h)

/-- Witness for claim C10: after a rename and then a cover change, the
board's cover image is still non-null. -/
theorem c10_cover_never_cleared_witness :
    coverOk (applyUpdates c10Db
      [("board-1", ⟨some "renamed", none⟩, ⟨5, 0⟩),
       ("board-1", ⟨none, some "img-2"⟩, ⟨6, 0⟩)]) "board-1" = true :=
  c10_cover_never_cleared c10Db "board-1" _ (by decide)

/-- A store with fifteen boards created by `save` at seconds 0 through 14,
for the concrete part of claim C7. -/
def db15 : BoardsDb :=
  (List.range 15).foldl
    (fun db i => (save db (toString i) ("board-" ++ toString i) ⟨i, 0⟩).1)
    emptyDb

/-- Claim C7: `get_many` echoes `offset` and `limit`, reports `total` as the
full row count, returns at most `limit` records — exactly the slice of the
`updated_at`-descending ordering starting at `offset` — and the returned page
is sorted by `updated_at` descending; with fifteen stored boards, page
`(0, 10)` has ten items and page `(10, 10)` the remaining five, both with
`total = 15`. -/
theorem c7_get_many_pagination :
    (∀ (db : BoardsDb) (offset limit : Nat),
      (get_many db offset limit).offset = offset ∧
      (get_many db offset limit).limit = limit ∧
      (get_many db offset limit).total = db.rows.length ∧
      (get_many db offset limit).items.length ≤ limit ∧
      (get_many db offset limit).items =
        (((sortByUpdatedDesc db.rows).drop offset).take limit).map toRecord ∧
      (get_many db offset limit).items.Pairwise
        (fun a b => Timestamp.le b.updated_at a.updated_at = true)) ∧
    (get_many db15 0 10).items.length = 10 ∧
    (get_many db15 0 10).total = 15 ∧
    (get_many db15 10 10).items.length = 5 ∧
    (get_many db15 10 10).total = 15 := by
  refine ⟨fun db offset limit => ⟨rfl, rfl, rfl, ?_, rfl, ?_⟩, ?_, rfl, ?_, rfl⟩
  · simp only [get_many, List.length_map, List.length_take]
    exact min_le_left _ _
  · have hsorted : ((sortByUpdatedDesc db.rows).drop offset).Pairwise updGE :=
      List.Pairwise.sublist (List.drop_sublist offset _)
        (List.sorted_insertionSort updGE db.rows)
    have hsorted2 :
        (((sortByUpdatedDesc db.rows).drop offset).take limit).Pairwise updGE :=
      List.Pairwise.sublist (List.take_sublist limit _) hsorted
    exact hsorted2.map toRecord (fun a b hab => hab)
  · rfl
  · rfl

/-- Claim C8 fails as stated: a `BoardChanges` field that is present but
explicitly null passes validation — pydantic v1 `Optional[str]` accepts
`None` — yielding the same patch as when the field is absent, whereas the
claim says a present-but-null field is disallowed. -/
theorem c8_counterexample :
    validateBoardChanges [("board_name", Jval.jnull)]
        = .ok { board_name := none, cover_image_name := none } ∧
    validateBoardChanges [("cover_image_name", Jval.jnull)]
        = .ok { board_name := none, cover_image_name := none } := by
  exact ⟨rfl, rfl⟩

/-- Claim C8 (amended): a patch containing any unknown field is rejected by
the strict (`Extra.forbid`) validation; a patch with both fields absent is
accepted as the no-op patch; and a field that is present but null is
accepted and treated exactly like an absent field, not rejected. -/
theorem c8_amended_validation :
    (∀ (fields : List (String × Jval)) (p : String × Jval), p ∈ fields →
      knownKey p.1 = false →
      ∃ k, validateBoardChanges fields = .error (.extraForbidden k)) ∧
    validateBoardChanges []
        = .ok { board_name := none, cover_image_name := none } ∧
    validateBoardChanges [("board_name", Jval.jnull)] = validateBoardChanges [] ∧
    validateBoardChanges [("cover_image_name", Jval.jnull)]
        = validateBoardChanges [] := by
  refine ⟨?_, rfl, rfl, rfl⟩
  intro fields p hp hunk
  have hfind : (fields.find? (fun q => !knownKey q.1)).isSome = true := by
    rw [List.find?_isSome]
    exact ⟨p, hp, by simp [hunk]⟩
  cases hq : fields.find? (fun q => !knownKey q.1) with
  | none => rw [hq] at hfind; simp at hfind
  | some q =>
    refine ⟨q.1, ?_⟩
    unfold validateBoardChanges
    rw [hq]

/-- Witness for the amended claim C8: a patch with the unknown key `bogus`
is rejected by the strict validation. -/
theorem c8_amended_validation_witness :
    ∃ k, validateBoardChanges [("bogus", Jval.jstr "x")]
        = .error (.extraForbidden k) :=
  (c8_amended_validation).1 [("bogus", Jval.jstr "x")] ("bogus", Jval.jstr "x")
    (by decide) (by decide)

end Boards
